import Mathlib

/-!
Verification development for the `Legally` legal-assistant retrieval subsystem.

This file gives a shallow embedding of the precedent-retrieval code in
`legal_assistant/tools/legal_precedent_search_tool.py` and of the corpus
loading step in `legal_assistant/database/chroma_db/setup_vector_db.py`,
together with theorems settling the specification claims about them.

Modelling conventions:
* Python strings are Lean `String`s / `List Char`; Python `str.lower` is
  `Char.toLower` mapped over the characters (the claims only involve ASCII).
* A Tavily raw result is a record of optional fields, mirroring `dict.get`.
* The Tavily client is modelled as a function from the request actually
  built by the code to a list of raw results, so theorems quantify over
  every possible upstream response.
* Python `int` is `Int`; slice bounds and truthiness are translated
  explicitly.
* The final markdown formatting of the tool output is out of scope per the
  specification; the model returns the structured candidate list that the
  formatting layer consumes.
-/

/-- `leadsWith needle hay`: `needle` is an initial segment of `hay`. -/
def leadsWith : List Char → List Char → Bool
  | [], _ => true
  | _ :: _, [] => false
  | a :: as, b :: bs => a == b && leadsWith as bs

/-- `containsSub needle hay`: `needle` occurs contiguously somewhere in `hay`
(Python `needle in hay` on strings). -/
def containsSub (needle : List Char) : List Char → Bool
  | [] => needle.isEmpty
  | c :: t => leadsWith needle (c :: t) || containsSub needle t

/-- Python `str.lower`, restricted to the ASCII range the claims use. -/
def lowerStr (s : List Char) : List Char := s.map Char.toLower

/-- Python `s.replace(c, repl)` for a one-character needle `c` (the only
form the source uses: `ipc_sections.replace(",", " OR IPC ")`). -/
def replaceChar (c : Char) (repl : String) : List Char → List Char
  | [] => []
  | d :: t =>
    if d = c then repl.data ++ replaceChar c repl t else d :: replaceChar c repl t

/-- Python `sep.join(parts)`. -/
def joinSep (sep : String) : List String → String
  | [] => ""
  | [x] => x
  | x :: xs => x ++ sep ++ joinSep sep xs

/-- The trusted Indian legal domains (`LEGAL_SOURCES` in
`legal_precedent_search_tool.py`), i.e. the TrustedDomainSet of the spec. -/
def LEGAL_SOURCES : List String :=
  [ "indiankanoon.org"
  , "sci.gov.in"
  , "judgments.ecourts.gov.in"
  , "hcservices.ecourts.gov.in"
  , "lawmin.gov.in"
  , "legislative.gov.in"
  , "legalserviceindia.com"
  , "casemine.com"
  , "manupatra.com"
  , "scconline.com" ]

/-- `_is_legal_source` from the source: an empty URL is rejected; otherwise
the URL is accepted iff some trusted domain occurs as a substring of the
lower-cased URL (`any(domain in url.lower() for domain in LEGAL_SOURCES)`). -/
def is_legal_source (url : String) : Bool :=
  if url = "" then false
  else LEGAL_SOURCES.any fun domain => containsSub domain.data (lowerStr url.data)

/-! ### Regular-expression machinery for citation extraction

`_extract_case_citation` uses `re.search` with the `IGNORECASE` flag over
four fixed patterns.  The patterns only use literals, the classes
`\d`, `\s`, `\w`, the quantifiers `*`, `+`, `{4}`, so we embed exactly that
fragment, with the Python leftmost-match, greedy-with-backtracking semantics. -/

/-- `\d` (the claims only involve ASCII digits). -/
def isDigitC (c : Char) : Bool := c.isDigit

/-- `\s`: Python whitespace characters. -/
def isSpaceC (c : Char) : Bool :=
  c == ' ' || c == '\t' || c == '\n' || c == '\r' || c == '\x0b' || c == '\x0c'

/-- `\w` (ASCII): letters, digits, underscore. -/
def isWordC (c : Char) : Bool := c.isAlphanum || c == '_'

/-- One token of the regex fragment used by the citation patterns. -/
inductive RTok where
  /-- a literal character, compared case-insensitively (`re.IGNORECASE`) -/
  | lit (c : Char)
  /-- a character class matched exactly once -/
  | cls (f : Char → Bool)
  /-- greedy `class*` -/
  | star (f : Char → Bool)
  /-- greedy `class+` -/
  | plus (f : Char → Bool)
  /-- `class{n}` (exactly `n` repetitions) -/
  | rep (f : Char → Bool) (n : Nat)

/-- Length of the longest prefix of `s` whose characters all satisfy `f`. -/
def maxRun (f : Char → Bool) : List Char → Nat
  | [] => 0
  | c :: t => if f c then maxRun f t + 1 else 0

/-- Consume exactly `n` characters satisfying `f`, returning the rest. -/
def consumeN (f : Char → Bool) : Nat → List Char → Option (List Char)
  | 0, s => some s
  | _ + 1, [] => none
  | n + 1, c :: t => if f c then consumeN f n t else none

/-- Greedy backtracking for a class star: try to let the star consume `j`
characters, for `j` from the given bound down to `0`, and continue with `m`
(the matcher for the remaining tokens); returns the total matched length. -/
def tryAt (m : List Char → Option Nat) (s : List Char) : Nat → Option Nat
  | 0 => m s
  | j + 1 =>
    match m (s.drop (j + 1)) with
    | some n => some (j + 1 + n)
    | none => tryAt m s j

/-- Match a token list against a prefix of `s`, returning the number of
characters matched (Python greedy semantics for this regex fragment). -/
def matchToks : List RTok → List Char → Option Nat
  | [], _ => some 0
  | .lit _ :: _, [] => none
  | .lit c :: ts, d :: rest =>
    if d.toLower == c.toLower then (matchToks ts rest).map (· + 1) else none
  | .cls _ :: _, [] => none
  | .cls f :: ts, d :: rest =>
    if f d then (matchToks ts rest).map (· + 1) else none
  | .star f :: ts, s => tryAt (matchToks ts) s (maxRun f s)
  | .plus _ :: _, [] => none
  | .plus f :: ts, d :: rest =>
    if f d then (tryAt (matchToks ts) rest (maxRun f rest)).map (· + 1) else none
  | .rep f n :: ts, s =>
    match consumeN f n s with
    | some rest => (matchToks ts rest).map (· + n)
    | none => none

/-- `re.search`: try the pattern at each start position, leftmost first, and
return the matched substring (`match.group()`). -/
def searchFrom (toks : List RTok) : List Char → Option (List Char)
  | [] => (matchToks toks []).map fun n => ([] : List Char).take n
  | s@(_ :: t) =>
    match matchToks toks s with
    | some n => some (s.take n)
    | none => searchFrom toks t

/-- `re.search(pattern, text, re.IGNORECASE)`, returning the matched text. -/
def reSearch (toks : List RTok) (text : String) : Option String :=
  (searchFrom toks text.data).map List.asString

/-- The raw pattern `\(\d{4}\)\s*\d+\s*SCC\s*\d+` — e.g. `(2024) 5 SCC 123`. -/
def patSCC : List RTok :=
  [ .lit '(', .rep isDigitC 4, .lit ')', .star isSpaceC, .plus isDigitC
  , .star isSpaceC, .lit 'S', .lit 'C', .lit 'C', .star isSpaceC, .plus isDigitC ]

/-- The raw pattern `AIR\s*\d{4}\s*SC\s*\d+` — e.g. `AIR 2024 SC 123`. -/
def patAIR : List RTok :=
  [ .lit 'A', .lit 'I', .lit 'R', .star isSpaceC, .rep isDigitC 4
  , .star isSpaceC, .lit 'S', .lit 'C', .star isSpaceC, .plus isDigitC ]

/-- The raw pattern `\d{4}\s*\(\d+\)\s*\w+\s*\d+` — e.g. `2024 (5) ALT 123`. -/
def patReporter : List RTok :=
  [ .rep isDigitC 4, .star isSpaceC, .lit '(', .plus isDigitC, .lit ')'
  , .star isSpaceC, .plus isWordC, .star isSpaceC, .plus isDigitC ]

/-- The raw pattern `W\.P\.\s*No\.\s*\d+\s*of\s*\d{4}` — e.g. `W.P. No. 123 of 2024`. -/
def patWP : List RTok :=
  [ .lit 'W', .lit '.', .lit 'P', .lit '.', .star isSpaceC
  , .lit 'N', .lit 'o', .lit '.', .star isSpaceC, .plus isDigitC
  , .star isSpaceC, .lit 'o', .lit 'f', .star isSpaceC, .rep isDigitC 4 ]

/-- The ordered pattern list of `_extract_case_citation`. -/
def citation_patterns : List (List RTok) := [patSCC, patAIR, patReporter, patWP]

/-- Try the patterns in order; first pattern that matches anywhere wins. -/
def firstPatMatch : List (List RTok) → String → Option String
  | [], _ => none
  | p :: ps, t =>
    match reSearch p t with
    | some m => some m
    | none => firstPatMatch ps t

/-- `_extract_case_citation` from the source: apply the ordered pattern list
to the text, case-insensitively; first match wins, else `None`. -/
def extract_case_citation (text : String) : Option String :=
  firstPatMatch citation_patterns text

/-! ### The precedent search pipeline -/

/-- One raw result from the Tavily provider: a dict with optional fields
(`item.get(...)` in the source).  The numeric relevance score is carried as
an opaque integer value; the code never computes with it. -/
structure RawResult where
  title : Option String
  content : Option String
  url : Option String
  score : Option Int
deriving Repr, DecidableEq

/-- The request handed to `client.search(...)`: the composed query string,
`max_results`, `search_depth`, and the optional `include_domains` allowlist
(absent in `search_by_court`, which passes no such parameter). -/
structure ProviderRequest where
  query : String
  max_results : Int
  search_depth : String
  include_domains : Option (List String)
deriving Repr, DecidableEq

/-- A processed precedent entry of `search_legal_precedents` (the dict
appended to `legal_results`). -/
structure Candidate where
  title : String
  citation : Option String
  summary : String
  url : Option String
  source : String
deriving Repr, DecidableEq

/-- Build the dict appended to `legal_results` for one raw item:
citation from title, else from content (Python `or`); summary is the first
500 characters of the content; `source` is the first trusted domain occurring
verbatim (case-sensitively) in the raw URL, else `"Unknown"`. -/
def mkCandidate (item : RawResult) : Candidate :=
  { title := item.title.getD ""
  , citation :=
      (extract_case_citation (item.title.getD "")).orElse
        fun _ => extract_case_citation (item.content.getD "")
  , summary := ((item.content.getD "").data.take 500).asString
  , url := item.url
  , source :=
      (LEGAL_SOURCES.find? fun domain =>
        containsSub domain.data (item.url.getD "").data).getD "Unknown" }

/-- The `for item in raw_results` loop of `search_legal_precedents`:
drop untrusted URLs, skip titles already in `seen`, append the processed
candidate, and break as soon as `len(legal_results) >= max_results`
(checked after appending; `count` is the current `len(legal_results)`). -/
def collectLoop (max_results : Int) : List RawResult → List String → Nat → List Candidate
  | [], _, _ => []
  | item :: rest, seen, count =>
    if ¬ is_legal_source (item.url.getD "") then
      collectLoop max_results rest seen count
    else if item.title.getD "" ∈ seen then
      collectLoop max_results rest seen count
    else if max_results ≤ (count : Int) + 1 then
      [mkCandidate item]
    else
      mkCandidate item ::
        collectLoop max_results rest (item.title.getD "" :: seen) (count + 1)

/-- Outcome of `search_legal_precedents`, up to (out-of-scope) formatting:
either the missing-credential error string, or the provider request that was
issued together with the processed candidate list. -/
inductive PrecedentSearchResult where
  | configError (msg : String)
  | ok (request : ProviderRequest) (candidates : List Candidate)
deriving Repr, DecidableEq

/-- The free-text query composed by `search_legal_precedents`:
`" ".join([query] + optional IPC clause + ["judgment precedent case law India"])`,
where the IPC clause replaces each `","` by `" OR IPC "` and prefixes `"IPC "`.
The clause is added only when `ipc_sections` is truthy (present and
non-empty, Python `if ipc_sections:`). -/
def full_query (query : String) (ipc_sections : Option String) : String :=
  let search_terms :=
    [query] ++
      (match ipc_sections with
       | some s => if s = "" then [] else ["IPC " ++ (replaceChar ',' " OR IPC " s.data).asString]
       | none => []) ++
      ["judgment precedent case law India"]
  joinSep " " search_terms

/-- The `site:` clause of `search_legal_precedents`:
`" OR ".join(f"site:{domain}" for domain in LEGAL_SOURCES[:3])`. -/
def site_query : String :=
  joinSep " OR " ((LEGAL_SOURCES.take 3).map fun domain => "site:" ++ domain)

/-- The request `search_legal_precedents` passes to `client.search`: the
composed query, `max_results * 2` (extra results for filtering),
`search_depth="advanced"`, and the full trusted-domain list as
`include_domains`. -/
def precedent_request (query : String) (ipc_sections : Option String)
    (max_results : Int) : ProviderRequest :=
  { query := "(" ++ site_query ++ ") " ++ full_query query ipc_sections
  , max_results := max_results * 2
  , search_depth := "advanced"
  , include_domains := some LEGAL_SOURCES }

/-- `search_legal_precedents` (structured outcome).  `api_key` models
`os.getenv("TAVILY_API_KEY")` (`none` = unset); an unset or empty key is
falsy and yields the error string before any provider interaction.  The
provider is a function from the issued request to the raw results. -/
def search_legal_precedents (api_key : Option String)
    (provider : ProviderRequest → List RawResult)
    (query : String) (ipc_sections : Option String) (max_results : Int) :
    PrecedentSearchResult :=
  if api_key.getD "" = "" then
    .configError "❌ Error: \u0027TAVILY_API_KEY\u0027 not found in .env file"
  else
    let request := precedent_request query ipc_sections max_results
    .ok request (collectLoop max_results (provider request) [] 0)

/-- The candidate list of an outcome (empty on the error branch). -/
def PrecedentSearchResult.candidates : PrecedentSearchResult → List Candidate
  | .configError _ => []
  | .ok _ cs => cs

/-- The provider request of an outcome, when one was issued. -/
def PrecedentSearchResult.request : PrecedentSearchResult → Option ProviderRequest
  | .configError _ => none
  | .ok req _ => some req

/-! ### The court-level variant -/

/-- The static `court_domains` lookup table of `search_by_court`, including
the `dict.get(court_level, LEGAL_SOURCES)` default. -/
def court_domains (court_level : String) : List String :=
  if court_level = "supreme" then
    ["sci.gov.in", "indiankanoon.org/search/?formInput=doctypes:sc"]
  else if court_level = "high" then
    ["hcservices.ecourts.gov.in", "indiankanoon.org/search/?formInput=doctypes:hc"]
  else if court_level = "district" then
    ["judgments.ecourts.gov.in"]
  else
    LEGAL_SOURCES

/-- A result entry of `search_by_court`: the raw optional title/summary/url,
the requested court level, and the provider score (defaulted to 0). -/
structure CourtCandidate where
  title : Option String
  summary : Option String
  url : Option String
  court_level : String
  relevance_score : Int
deriving Repr, DecidableEq

/-- The dict built for one trusted raw item in `search_by_court`. -/
def mkCourtCandidate (court_level : String) (item : RawResult) : CourtCandidate :=
  { title := item.title
  , summary := item.content
  , url := item.url
  , court_level := court_level
  , relevance_score := item.score.getD 0 }

/-- Python list slicing `l[:n]` for an `int` bound `n` (negative bounds cut
from the end). -/
def pyTake (n : Int) (l : List α) : List α :=
  if 0 ≤ n then l.take n.toNat else l.take (l.length - n.natAbs)

/-- The request `search_by_court` passes to `client.search`: a `site:`
clause over the first 3 court-scoped domains, the query, the fixed suffix
`" judgment India"`, `max_results * 2`, and no `include_domains` parameter. -/
def by_court_request (query : String) (court_level : String)
    (max_results : Int) : ProviderRequest :=
  { query :=
      "(" ++
        joinSep " OR "
          (((court_domains court_level).take 3).map fun domain => "site:" ++ domain) ++
      ") " ++ query ++ " judgment India"
  , max_results := max_results * 2
  , search_depth := "advanced"
  , include_domains := none }

/-- `LegalPrecedentSearcher.search_by_court`: compose the court-scoped
`site:` query, issue one request (with no `include_domains` parameter),
keep the raw results passing `_is_legal_source`, and return the first
`max_results` of them — no title deduplication, scores passed through. -/
def search_by_court (provider : ProviderRequest → List RawResult)
    (query : String) (court_level : String) (max_results : Int) :
    List CourtCandidate :=
  let results := (provider (by_court_request query court_level max_results)).filterMap
    fun item =>
      if is_legal_source (item.url.getD "") then
        some (mkCourtCandidate court_level item)
      else
        none
  pyTake max_results results

/-! ### The corpus loading step of the vector-database builder -/

/-- A record of the IPC corpus file (a JSON object with the optional fields
used by `prepare_documents`). -/
structure IpcRecord where
  Section : Option String
  Section_Title : Option String
  Description : Option String
  Chapter : Option String
  Chapter_Title : Option String
  Offense_Type : Option String
  Punishment : Option String
  Is_Bailable : Option String
  Is_Cognizable : Option String
  Triable_By : Option String
deriving Repr, DecidableEq

/-- State of the corpus file at `IPC_JSON_PATH`: absent, present but not
valid JSON, or present with a parsed record list. -/
inductive CorpusFile where
  | absent
  | invalidJson
  | valid (data : List IpcRecord)
deriving Repr, DecidableEq

/-- The Python exceptions `load_ipc_data` can raise. -/
inductive PyError where
  /-- `FileNotFoundError` -/
  | fileNotFound
  /-- `json.JSONDecodeError` from `json.load` -/
  | jsonDecodeError
  /-- `NameError`: the given name is evaluated but bound nowhere -/
  | nameError (name : String)
deriving Repr, DecidableEq

/-- `IPCVectorDBSetup.load_ipc_data`, translated statement by statement:
raise `FileNotFoundError` if the file is absent; `json.load` raises on
invalid JSON; then `print(f"Loaded {len(ipc_data)} IPC sections.")`
evaluates the name `ipc_data`, which is bound neither in the function
(the parsed value is bound to `data`) nor at module level, so Python
raises `NameError` before the `return data` statement is reached. -/
def load_ipc_data (file : CorpusFile) : Except PyError (List IpcRecord) :=
  match file with
  | .absent => .error .fileNotFound
  | .invalidJson => .error .jsonDecodeError
  | .valid _ => .error (.nameError "ipc_data")

/-! ### Helper lemmas about the processing loop -/

/-- Unfolding the loop on an untrusted head item: it is skipped. -/
lemma collectLoop_cons_untrusted {mr : Int} {item : RawResult}
    {rest : List RawResult} {seen : List String} {count : Nat}
    (h1 : ¬ is_legal_source (item.url.getD "") = true) :
    collectLoop mr (item :: rest) seen count = collectLoop mr rest seen count := by
  simp only [collectLoop]
  rw [if_pos h1]

/-- Unfolding the loop on a trusted head whose title was already seen: it is
skipped. -/
lemma collectLoop_cons_seen {mr : Int} {item : RawResult}
    {rest : List RawResult} {seen : List String} {count : Nat}
    (h1 : is_legal_source (item.url.getD "") = true)
    (h2 : item.title.getD "" ∈ seen) :
    collectLoop mr (item :: rest) seen count = collectLoop mr rest seen count := by
  simp only [collectLoop]
  rw [if_neg (not_not_intro h1), if_pos h2]

/-- Unfolding the loop on a fresh trusted head when the quota is reached
by appending it: the loop breaks. -/
lemma collectLoop_cons_break {mr : Int} {item : RawResult}
    {rest : List RawResult} {seen : List String} {count : Nat}
    (h1 : is_legal_source (item.url.getD "") = true)
    (h2 : ¬ item.title.getD "" ∈ seen)
    (h3 : mr ≤ (count : Int) + 1) :
    collectLoop mr (item :: rest) seen count = [mkCandidate item] := by
  simp only [collectLoop]
  rw [if_neg (not_not_intro h1), if_neg h2, if_pos h3]

/-- Unfolding the loop on a fresh trusted head when the quota is not yet
reached: the candidate is kept and the loop continues. -/
lemma collectLoop_cons_keep {mr : Int} {item : RawResult}
    {rest : List RawResult} {seen : List String} {count : Nat}
    (h1 : is_legal_source (item.url.getD "") = true)
    (h2 : ¬ item.title.getD "" ∈ seen)
    (h3 : ¬ mr ≤ (count : Int) + 1) :
    collectLoop mr (item :: rest) seen count =
      mkCandidate item ::
        collectLoop mr rest (item.title.getD "" :: seen) (count + 1) := by
  simp only [collectLoop]
  rw [if_neg (not_not_intro h1), if_neg h2, if_neg h3]

/-- Every candidate produced by the loop has a fresh title, comes from some
raw item with a trusted URL, and no earlier trusted raw item carries the
same title (first occurrence wins). -/
lemma collectLoop_mem_spec (mr : Int) :
    ∀ (raw : List RawResult) (seen : List String) (count : Nat) (c : Candidate),
      c ∈ collectLoop mr raw seen count →
      c.title ∉ seen ∧
      ∃ pre item post, raw = pre ++ item :: post ∧ c = mkCandidate item ∧
        is_legal_source (item.url.getD "") = true ∧
        ∀ it ∈ pre, is_legal_source (it.url.getD "") = true →
          it.title.getD "" ≠ c.title := by
  intro raw
  induction raw with
  | nil => intro seen count c hc; simp [collectLoop] at hc
  | cons item rest ih =>
    intro seen count c hc
    by_cases h1 : is_legal_source (item.url.getD "") = true
    · by_cases h2 : item.title.getD "" ∈ seen
      · rw [collectLoop_cons_seen h1 h2] at hc
        obtain ⟨hns, pre, item0, post, hraw, hcand, htrust, hpre⟩ := ih seen count c hc
        refine ⟨hns, item :: pre, item0, post, by simp [hraw], hcand, htrust, ?_⟩
        intro it hit htr
        rcases List.mem_cons.mp hit with h | h
        · intro heq
          exact hns (by rw [← heq, h]; exact h2)
        · exact hpre it h htr
      · by_cases h3 : mr ≤ (count : Int) + 1
        · rw [collectLoop_cons_break h1 h2 h3] at hc
          have hc' : c = mkCandidate item := by simpa using hc
          subst hc'
          exact ⟨by simpa [mkCandidate] using h2, [], item, rest, rfl, rfl, h1, by simp⟩
        · rw [collectLoop_cons_keep h1 h2 h3] at hc
          rcases List.mem_cons.mp hc with hc' | hc'
          · subst hc'
            exact ⟨by simpa [mkCandidate] using h2, [], item, rest, rfl, rfl, h1, by simp⟩
          · obtain ⟨hns, pre, item0, post, hraw, hcand, htrust, hpre⟩ :=
              ih (item.title.getD "" :: seen) (count + 1) c hc'
            refine ⟨fun h => hns (List.mem_cons_of_mem _ h),
              item :: pre, item0, post, by simp [hraw], hcand, htrust, ?_⟩
            intro it hit htr
            rcases List.mem_cons.mp hit with h | h
            · intro heq
              exact hns (by rw [← heq, h]; exact List.mem_cons_self _ _)
            · exact hpre it h htr
    · rw [collectLoop_cons_untrusted h1] at hc
      obtain ⟨hns, pre, item0, post, hraw, hcand, htrust, hpre⟩ := ih seen count c hc
      refine ⟨hns, item :: pre, item0, post, by simp [hraw], hcand, htrust, ?_⟩
      intro it hit htr
      rcases List.mem_cons.mp hit with h | h
      · exact absurd (h ▸ htr) h1
      · exact hpre it h htr

/-- The titles of the candidates produced by the loop are pairwise
distinct. -/
lemma collectLoop_titles_nodup (mr : Int) :
    ∀ (raw : List RawResult) (seen : List String) (count : Nat),
      ((collectLoop mr raw seen count).map Candidate.title).Nodup := by
  intro raw
  induction raw with
  | nil => intro seen count; simp [collectLoop]
  | cons item rest ih =>
    intro seen count
    by_cases h1 : is_legal_source (item.url.getD "") = true
    · by_cases h2 : item.title.getD "" ∈ seen
      · rw [collectLoop_cons_seen h1 h2]; exact ih seen count
      · by_cases h3 : mr ≤ (count : Int) + 1
        · rw [collectLoop_cons_break h1 h2 h3]; simp
        · rw [collectLoop_cons_keep h1 h2 h3, List.map_cons]
          refine List.nodup_cons.mpr ⟨?_, ih _ _⟩
          intro hmem
          obtain ⟨c, hc, htitle⟩ := List.mem_map.mp hmem
          have hfresh := (collectLoop_mem_spec mr rest _ _ c hc).1
          apply hfresh
          rw [htitle]
          simp [mkCandidate]
    · rw [collectLoop_cons_untrusted h1]; exact ih seen count

/-- Length bound for the loop: while fewer than `mr` candidates are
collected, the loop adds at most `mr - count` further candidates. -/
lemma collectLoop_length_le (mr : Int) :
    ∀ (raw : List RawResult) (seen : List String) (count : Nat),
      (count : Int) < mr →
      ((collectLoop mr raw seen count).length : Int) + count ≤ mr := by
  intro raw
  induction raw with
  | nil => intro seen count h; simp [collectLoop]; omega
  | cons item rest ih =>
    intro seen count h
    by_cases h1 : is_legal_source (item.url.getD "") = true
    · by_cases h2 : item.title.getD "" ∈ seen
      · rw [collectLoop_cons_seen h1 h2]; exact ih seen count h
      · by_cases h3 : mr ≤ (count : Int) + 1
        · rw [collectLoop_cons_break h1 h2 h3]; simp; omega
        · rw [collectLoop_cons_keep h1 h2 h3]
          have hrec := ih (item.title.getD "" :: seen) (count + 1) (by push_cast; omega)
          simp only [List.length_cons]
          push_cast at hrec ⊢
          omega
    · rw [collectLoop_cons_untrusted h1]; exact ih seen count h

/-- The loop output is the image under `mkCandidate` of a sublist of the raw
results: upstream order is preserved, nothing is re-ranked. -/
lemma collectLoop_eq_map_sublist (mr : Int) :
    ∀ (raw : List RawResult) (seen : List String) (count : Nat),
      ∃ sub : List RawResult, sub.Sublist raw ∧
        collectLoop mr raw seen count = sub.map mkCandidate := by
  intro raw
  induction raw with
  | nil => intro seen count; exact ⟨[], List.Sublist.refl _, by simp [collectLoop]⟩
  | cons item rest ih =>
    intro seen count
    by_cases h1 : is_legal_source (item.url.getD "") = true
    · by_cases h2 : item.title.getD "" ∈ seen
      · obtain ⟨sub, hs, he⟩ := ih seen count
        exact ⟨sub, hs.cons _, by rw [collectLoop_cons_seen h1 h2]; exact he⟩
      · by_cases h3 : mr ≤ (count : Int) + 1
        · exact ⟨[item], (List.nil_sublist rest).cons₂ _,
            by rw [collectLoop_cons_break h1 h2 h3]; simp⟩
        · obtain ⟨sub, hs, he⟩ := ih (item.title.getD "" :: seen) (count + 1)
          exact ⟨item :: sub, hs.cons₂ _,
            by rw [collectLoop_cons_keep h1 h2 h3]; simp [he]⟩
    · obtain ⟨sub, hs, he⟩ := ih seen count
      exact ⟨sub, hs.cons _, by rw [collectLoop_cons_untrusted h1]; exact he⟩

/-- The candidate list of `search_legal_precedents`, in terms of the loop. -/
lemma search_candidates_eq (key : Option String)
    (provider : ProviderRequest → List RawResult)
    (q : String) (ipc : Option String) (mr : Int) :
    (search_legal_precedents key provider q ipc mr).candidates =
      if key.getD "" = "" then []
      else collectLoop mr (provider (precedent_request q ipc mr)) [] 0 := by
  unfold search_legal_precedents
  split_ifs <;> rfl

/-- Membership in `search_by_court` results: each entry comes from a raw
item with a URL passing the (global) trust check. -/
lemma search_by_court_mem {provider : ProviderRequest → List RawResult}
    {q lvl : String} {mr : Int} {c : CourtCandidate}
    (hc : c ∈ search_by_court provider q lvl mr) :
    ∃ item, item ∈ provider (by_court_request q lvl mr) ∧
      c = mkCourtCandidate lvl item ∧ is_legal_source (item.url.getD "") = true := by
  unfold search_by_court at hc
  have hc' : c ∈ (provider (by_court_request q lvl mr)).filterMap
      (fun item => if is_legal_source (item.url.getD "") then
        some (mkCourtCandidate lvl item) else none) := by
    unfold pyTake at hc
    split_ifs at hc <;> exact List.mem_of_mem_take hc
  obtain ⟨item, hi, he⟩ := List.mem_filterMap.mp hc'
  by_cases ht : is_legal_source (item.url.getD "") = true
  · rw [if_pos ht] at he
    exact ⟨item, hi, (Option.some.inj he).symm, ht⟩
  · rw [if_neg ht] at he
    cases he

/-- Python `l[:n]` never yields more than `n` elements for `n ≥ 0`. -/
lemma pyTake_length_le {n : Int} (hn : 0 ≤ n) (l : List α) :
    (pyTake n l).length ≤ n.toNat := by
  unfold pyTake
  rw [if_pos hn, List.length_take]
  exact Nat.min_le_left _ _

/-! ### Concrete raw-result fixtures used by counterexamples and witnesses -/

/-- A raw result whose URL is a trusted domain written in upper case: it
passes the (lower-casing) trust filter, but the case-sensitive `source`
lookup misses. -/
def rawMixedCase : RawResult :=
  { title := some "T"
  , content := some "body"
  , url := some "https://INDIANKANOON.ORG/doc/1"
  , score := some 1 }

/-- A raw result on `manupatra.com` — trusted globally, but not part of the
supreme-court domain subset. -/
def rawManupatra : RawResult :=
  { title := some "Case A"
  , content := some "c"
  , url := some "https://www.manupatra.com/judgment1"
  , score := some 2 }

/-- An ordinary trusted raw result with a lower-case URL. -/
def rawTrusted : RawResult :=
  { title := some "X v Y"
  , content := some "c"
  , url := some "https://indiankanoon.org/doc/9"
  , score := some 3 }

/-! ### Claim-side query compositions (for claim C4) -/

/-- The search string as claim C4 states it: the free-text query built from
the raw query, the OR-joined statute identifiers and the boosting terms
exactly `"judgment precedent case law"`, with the domain-restriction clause
over the first 3 trusted domains appended after it. -/
def claim_search_query (query : String) (ipc_sections : Option String) : String :=
  joinSep " "
    ([query] ++
      (match ipc_sections with
       | some s =>
         if s = "" then []
         else ["IPC " ++ (replaceChar ',' " OR IPC " s.data).asString]
       | none => []) ++
      ["judgment precedent case law"]) ++
  " (" ++ site_query ++ ")"

/-- The free-text query as the amended claim states it: the raw query, then
(if provided) the statute identifiers joined with OR semantics, then the
fixed boosting terms `"judgment precedent case law India"`. -/
def amended_free_text (query : String) (ipc_sections : Option String) : String :=
  match ipc_sections with
  | some s =>
    if s = "" then query ++ " judgment precedent case law India"
    else
      query ++ " IPC " ++ (replaceChar ',' " OR IPC " s.data).asString ++
        " judgment precedent case law India"
  | none => query ++ " judgment precedent case law India"

/-- The full search string as the amended claim states it: the
domain-restriction clause over the first 3 trusted domains, prepended
(in parentheses) to the free-text query. -/
def amended_search_query (query : String) (ipc_sections : Option String) : String :=
  "(" ++ joinSep " OR " ((LEGAL_SOURCES.take 3).map fun domain => "site:" ++ domain) ++
    ") " ++ amended_free_text query ipc_sections

/-- The free-text query the code composes coincides with the amended
description. -/
lemma full_query_eq_amended (query : String) (ipc_sections : Option String) :
    full_query query ipc_sections = amended_free_text query ipc_sections := by
  cases ipc_sections with
  | none =>
    apply String.ext
    simp [full_query, amended_free_text, joinSep]
  | some s =>
    by_cases hs : s = ""
    · subst hs
      apply String.ext
      simp [full_query, amended_free_text, joinSep]
    · apply String.ext
      simp [full_query, amended_free_text, joinSep, hs]

/-! ### Claim theorems -/

/-- C2 (code bug): on a corpus file that exists and parses, `load_ipc_data`
does not return the parsed list — the logging statement evaluates the
unbound name `ipc_data` (the parsed value is bound to `data`), so the
function raises `NameError` before its `return`; the `NotFound` and
`ParseError` outcomes for the absent/invalid cases are as specified. -/
theorem c2_load_ipc_data_name_error :
    (∀ data : List IpcRecord,
      load_ipc_data (.valid data) = .error (.nameError "ipc_data")) ∧
    load_ipc_data .absent = .error .fileNotFound ∧
    load_ipc_data .invalidJson = .error .jsonDecodeError :=
  ⟨fun _ => rfl, rfl, rfl⟩

/-- C9: with the search-provider credential unset (or empty, which Python
treats as falsy too), `search_legal_precedents` returns the human-readable
missing-credential message as an ordinary return value; the outcome is
independent of the provider, so no search request is issued. -/
theorem c9_missing_credential :
    (∀ (provider : ProviderRequest → List RawResult) (q : String)
        (ipc : Option String) (mr : Int),
      search_legal_precedents none provider q ipc mr =
        .configError "❌ Error: \u0027TAVILY_API_KEY\u0027 not found in .env file") ∧
    (∀ (provider : ProviderRequest → List RawResult) (q : String)
        (ipc : Option String) (mr : Int),
      search_legal_precedents (some "") provider q ipc mr =
        .configError "❌ Error: \u0027TAVILY_API_KEY\u0027 not found in .env file") ∧
    (∀ (p1 p2 : ProviderRequest → List RawResult) (q : String)
        (ipc : Option String) (mr : Int),
      search_legal_precedents none p1 q ipc mr =
        search_legal_precedents none p2 q ipc mr) :=
  ⟨fun _ _ _ _ => rfl, fun _ _ _ _ => rfl, fun _ _ _ _ _ => rfl⟩

/-- C10: the URL-trust check accepts any URL containing a trusted-domain
string as a case-insensitive substring anywhere (here: in the path, under
an untrusted host), rejects the empty/missing URL, and rejects a URL in
which no trusted-domain string occurs. -/
theorem c10_substring_trust :
    is_legal_source "" = false ∧
    (LEGAL_SOURCES.all fun d =>
      !(containsSub d.data (lowerStr "https://evil.example/".data))) = true ∧
    is_legal_source "https://evil.example/indiankanoon.org/x" = true ∧
    (∀ u : String, ¬ u = "" →
      ∀ d ∈ LEGAL_SOURCES, containsSub d.data (lowerStr u.data) = true →
        is_legal_source u = true) ∧
    (∀ u : String,
      (∀ d ∈ LEGAL_SOURCES, ¬ containsSub d.data (lowerStr u.data) = true) →
        is_legal_source u = false) := by
  refine ⟨by decide, by decide, by decide, ?_, ?_⟩
  · intro u hu d hd hsub
    unfold is_legal_source
    rw [if_neg hu]
    exact List.any_eq_true.mpr ⟨d, hd, hsub⟩
  · intro u hnone
    unfold is_legal_source
    by_cases hu : u = ""
    · rw [if_pos hu]
    · rw [if_neg hu]
      rw [List.any_eq_false]
      intro d hd
      exact hnone d hd

/-- Witness for C10 at a concrete input: the path-only trusted substring
makes the check accept. -/
theorem c10_substring_trust_witness :
    is_legal_source "https://evil.example/indiankanoon.org/x" = true :=
  c10_substring_trust.2.2.2.1 "https://evil.example/indiankanoon.org/x"
    (by decide) "indiankanoon.org" (by decide) (by decide)

/-- C6: citation extraction applies the four patterns in priority order,
case-insensitively, first match wins, absent on no match; the title is
tried before the content when a candidate is processed.  The fourth
conjunct shows pattern priority beating text position: the SCC pattern is
preferred even though an AIR citation occurs earlier in the text. -/
theorem c6_citation_extraction :
    extract_case_citation "Ref: (2023) 4 SCC 221" = some "(2023) 4 SCC 221" ∧
    extract_case_citation "hello world" = none ∧
    extract_case_citation "air 2020 sc 55" = some "air 2020 sc 55" ∧
    extract_case_citation "AIR 1999 SC 1 and (2000) 2 SCC 3" =
      some "(2000) 2 SCC 3" ∧
    (∀ t : String, extract_case_citation t =
      firstPatMatch [patSCC, patAIR, patReporter, patWP] t) ∧
    (∀ item : RawResult, (mkCandidate item).citation =
      match extract_case_citation (item.title.getD "") with
      | some c => some c
      | none => extract_case_citation (item.content.getD "")) := by
  refine ⟨by decide, by decide, by decide, by decide, fun _ => rfl, ?_⟩
  intro item
  cases h : extract_case_citation (item.title.getD "") with
  | none => simp [mkCandidate, Option.orElse, h]
  | some c => simp [mkCandidate, Option.orElse, h]

/-- C1 (counterexample): a raw result whose trusted domain appears in upper
case in the URL passes the lower-casing trust filter, but the
case-sensitive `source` lookup misses, so the surfaced candidate carries
the sentinel `source = "Unknown"`, which is not a member of
TrustedDomainSet. -/
theorem c1_source_unknown_cex :
    (search_legal_precedents (some "k") (fun _ => [rawMixedCase]) "q" none 5).candidates.map
        Candidate.source = ["Unknown"] ∧
    ¬ "Unknown" ∈ LEGAL_SOURCES := by decide

/-- C1 (amended): every candidate surfaced by either retriever has a URL in
which some trusted domain occurs case-insensitively; the `source` field of
`search_legal_precedents` candidates is a trusted domain or the sentinel
`"Unknown"` (the latter when no trusted domain occurs verbatim in the raw
URL); `search_by_court` candidates carry no source-domain field at all, only
the trusted URL. -/
theorem c1_trusted_source_amended :
    (∀ (key : Option String) (provider : ProviderRequest → List RawResult)
        (q : String) (ipc : Option String) (mr : Int),
      ∀ c ∈ (search_legal_precedents key provider q ipc mr).candidates,
        is_legal_source (c.url.getD "") = true ∧
        ((∃ d ∈ LEGAL_SOURCES, containsSub d.data (c.url.getD "").data = true) →
          c.source ∈ LEGAL_SOURCES) ∧
        ((∀ d ∈ LEGAL_SOURCES, ¬ containsSub d.data (c.url.getD "").data = true) →
          c.source = "Unknown")) ∧
    (∀ (provider : ProviderRequest → List RawResult) (q lvl : String) (mr : Int),
      ∀ c ∈ search_by_court provider q lvl mr,
        is_legal_source (c.url.getD "") = true) := by
  constructor
  · intro key provider q ipc mr c hc
    rw [search_candidates_eq] at hc
    by_cases hkey : key.getD "" = ""
    · rw [if_pos hkey] at hc; cases hc
    · rw [if_neg hkey] at hc
      obtain ⟨_, pre, item, post, hraw, hcand, htrust, hpre⟩ :=
        collectLoop_mem_spec mr _ [] 0 c hc
      subst hcand
      refine ⟨htrust, ?_, ?_⟩
      · rintro ⟨d, hd, hsub⟩
        cases hfind : LEGAL_SOURCES.find? fun d =>
            containsSub d.data (item.url.getD "").data with
        | some d0 =>
          have hsrc : (mkCandidate item).source = d0 := by simp [mkCandidate, hfind]
          rw [hsrc]
          exact List.mem_of_find?_eq_some hfind
        | none =>
          exact absurd hsub (List.find?_eq_none.mp hfind d hd)
      · intro hnone
        cases hfind : LEGAL_SOURCES.find? fun d =>
            containsSub d.data (item.url.getD "").data with
        | some d0 =>
          exact absurd (List.find?_some hfind)
            (hnone d0 (List.mem_of_find?_eq_some hfind))
        | none =>
          simp [mkCandidate, hfind]
  · intro provider q lvl mr c hc
    obtain ⟨item, _, hcand, htrust⟩ := search_by_court_mem hc
    subst hcand
    exact htrust

/-- Witness for the amended C1 at concrete inputs: a lower-case trusted URL
(verbatim occurrence, so the source is a trusted domain) and the
upper-case URL of the counterexample (no verbatim occurrence, so the
source is the sentinel). -/
theorem c1_trusted_source_amended_witness :
    (is_legal_source ((mkCandidate rawTrusted).url.getD "") = true ∧
      (mkCandidate rawTrusted).source ∈ LEGAL_SOURCES) ∧
    (is_legal_source ((mkCandidate rawMixedCase).url.getD "") = true ∧
      (mkCandidate rawMixedCase).source = "Unknown") :=
  have h1 := c1_trusted_source_amended.1 (some "k") (fun _ => [rawTrusted])
    "q" none 5 (mkCandidate rawTrusted) (by decide)
  have h2 := c1_trusted_source_amended.1 (some "k") (fun _ => [rawMixedCase])
    "q" none 5 (mkCandidate rawMixedCase) (by decide)
  ⟨⟨h1.1, h1.2.1 (by decide)⟩, ⟨h2.1, h2.2.2 (by decide)⟩⟩

/-- C3 (counterexample): with `court_level = "supreme"`,
`search_by_court` returns a candidate on `manupatra.com` although no member
of the supreme-court domain subset occurs in its URL — the static table
scopes only the query composition, not the URL filter. -/
theorem c3_court_scope_cex :
    search_by_court (fun _ => [rawManupatra]) "q" "supreme" 5 =
      [mkCourtCandidate "supreme" rawManupatra] ∧
    ((court_domains "supreme").all fun d =>
      !(containsSub d.data
          (lowerStr ((mkCourtCandidate "supreme" rawManupatra).url.getD "").data))) = true := by
  decide

/-- C3 (amended): every candidate returned by `search_by_court` has a URL in
which some member of the full TrustedDomainSet occurs case-insensitively
(the check is `_is_legal_source`, regardless of court level); the
court-level lookup table scopes only the `site:` clause of the composed
query (over the first 3 members of the selected subset). -/
theorem c3_court_filter_amended :
    (∀ (provider : ProviderRequest → List RawResult) (q lvl : String) (mr : Int),
      ∀ c ∈ search_by_court provider q lvl mr,
        is_legal_source (c.url.getD "") = true) ∧
    (∀ (q lvl : String) (mr : Int),
      (by_court_request q lvl mr).query =
        "(" ++ joinSep " OR "
            (((court_domains lvl).take 3).map fun domain => "site:" ++ domain) ++
          ") " ++ q ++ " judgment India") := by
  constructor
  · intro provider q lvl mr c hc
    obtain ⟨item, _, hcand, htrust⟩ := search_by_court_mem hc
    subst hcand
    exact htrust
  · intro q lvl mr
    rfl

/-- Witness for the amended C3 at a concrete input. -/
theorem c3_court_filter_amended_witness :
    is_legal_source ((mkCourtCandidate "supreme" rawManupatra).url.getD "") = true :=
  c3_court_filter_amended.1 (fun _ => [rawManupatra]) "q" "supreme" 5
    (mkCourtCandidate "supreme" rawManupatra) (by decide)

/-- C4 (counterexample): the actually issued query string carries the
boosting terms `"judgment precedent case law India"` (not exactly
`"judgment precedent case law"`) and the domain clause is prepended, so it
differs from the composition stated by the claim. -/
theorem c4_query_composition_cex :
    (search_legal_precedents (some "k") (fun _ => []) "q" none 5).request =
      some { query := "(site:indiankanoon.org OR site:sci.gov.in OR site:judgments.ecourts.gov.in) q judgment precedent case law India"
           , max_results := 10
           , search_depth := "advanced"
           , include_domains := some LEGAL_SOURCES } ∧
    claim_search_query "q" none =
      "q judgment precedent case law (site:indiankanoon.org OR site:sci.gov.in OR site:judgments.ecourts.gov.in)" ∧
    ¬ (search_legal_precedents (some "k") (fun _ => []) "q" none 5).request =
      some { query := claim_search_query "q" none
           , max_results := 10
           , search_depth := "advanced"
           , include_domains := some LEGAL_SOURCES } := by decide

/-- C4 (amended): with a truthy credential, the issued request consists of
the domain-restriction clause over the first 3 trusted domains *prepended*
to the free-text query (raw query, OR-joined statute identifiers, boosting
terms `"judgment precedent case law India"`), with `max_results * 2`,
advanced search depth, and the full TrustedDomainSet as the structured
domain allowlist. -/
theorem c4_query_composition_amended :
    ∀ key : String, ¬ key = "" →
    ∀ (provider : ProviderRequest → List RawResult) (q : String)
      (ipc : Option String) (mr : Int),
      (search_legal_precedents (some key) provider q ipc mr).request =
        some { query := amended_search_query q ipc
             , max_results := mr * 2
             , search_depth := "advanced"
             , include_domains := some LEGAL_SOURCES } := by
  intro key hkey provider q ipc mr
  unfold search_legal_precedents
  rw [if_neg (by simpa using hkey)]
  refine congrArg some ?_
  unfold precedent_request amended_search_query site_query
  rw [full_query_eq_amended]

/-- Witness for the amended C4 at a concrete input. -/
theorem c4_query_composition_amended_witness :
    (search_legal_precedents (some "k") (fun _ => []) "q" none 5).request =
      some { query := amended_search_query "q" none
           , max_results := 10
           , search_depth := "advanced"
           , include_domains := some LEGAL_SOURCES } :=
  c4_query_composition_amended "k" (by decide) (fun _ => []) "q" none 5

/-- C5: `search_legal_precedents` never returns two candidates with the
same title (exact, case-sensitive string equality), and each returned
candidate is built from a raw item no earlier trusted raw item of which
shares its title — the first occurrence wins. -/
theorem c5_title_dedup :
    ∀ (key : Option String) (provider : ProviderRequest → List RawResult)
      (q : String) (ipc : Option String) (mr : Int),
      ((search_legal_precedents key provider q ipc mr).candidates.map
          Candidate.title).Nodup ∧
      (∀ c ∈ (search_legal_precedents key provider q ipc mr).candidates,
        ∃ pre item post,
          provider (precedent_request q ipc mr) = pre ++ item :: post ∧
          c = mkCandidate item ∧ c.title = item.title.getD "" ∧
          ∀ it ∈ pre, is_legal_source (it.url.getD "") = true →
            it.title.getD "" ≠ c.title) := by
  intro key provider q ipc mr
  rw [search_candidates_eq]
  by_cases hkey : key.getD "" = ""
  · rw [if_pos hkey]
    exact ⟨List.nodup_nil, by simp⟩
  · rw [if_neg hkey]
    refine ⟨collectLoop_titles_nodup mr _ [] 0, ?_⟩
    intro c hc
    obtain ⟨_, pre, item, post, hraw, hcand, _, hpre⟩ :=
      collectLoop_mem_spec mr _ [] 0 c hc
    exact ⟨pre, item, post, hraw, hcand, by rw [hcand]; rfl, hpre⟩

/-- Witness for C5: duplicated trusted upstream items are collapsed to one
candidate; the dedup facts hold at the concrete input. -/
theorem c5_title_dedup_witness :
    ((search_legal_precedents (some "k") (fun _ => [rawTrusted, rawTrusted]) "q" none 5).candidates.map
        Candidate.title).Nodup ∧
    (∃ pre item post,
      [rawTrusted, rawTrusted] = pre ++ item :: post ∧
      mkCandidate rawTrusted = mkCandidate item ∧
      (mkCandidate rawTrusted).title = item.title.getD "" ∧
      ∀ it ∈ pre, is_legal_source (it.url.getD "") = true →
        it.title.getD "" ≠ (mkCandidate rawTrusted).title) :=
  ⟨(c5_title_dedup (some "k") (fun _ => [rawTrusted, rawTrusted]) "q" none 5).1,
   (c5_title_dedup (some "k") (fun _ => [rawTrusted, rawTrusted]) "q" none 5).2
     (mkCandidate rawTrusted) (by decide)⟩

/-- C7 (counterexample): with `maxResults = 0` and one trusted upstream
result, `search_legal_precedents` returns one candidate — the break test
`len(legal_results) >= max_results` runs only after the first append, so
the bound fails for `maxResults = 0`. -/
theorem c7_zero_max_results_cex :
    ((search_legal_precedents (some "k") (fun _ => [rawTrusted]) "q" none 0).candidates).length = 1 ∧
    ¬ ((search_legal_precedents (some "k") (fun _ => [rawTrusted]) "q" none 0).candidates).length ≤ 0 := by
  decide

/-- C7 (amended): for every `maxResults ≥ 1` and every upstream response,
at most `maxResults` candidates are returned, they are the images (in
upstream order, with no re-ranking) of a sublist of the raw response, and
each content snippet is the first 500 characters of the upstream content. -/
theorem c7_truncation_order_amended :
    ∀ mr : Int, 1 ≤ mr →
    ∀ (key : Option String) (provider : ProviderRequest → List RawResult)
      (q : String) (ipc : Option String),
      (((search_legal_precedents key provider q ipc mr).candidates).length : Int) ≤ mr ∧
      (∃ sub : List RawResult,
        sub.Sublist (provider (precedent_request q ipc mr)) ∧
        (search_legal_precedents key provider q ipc mr).candidates =
          sub.map mkCandidate) ∧
      (∀ c ∈ (search_legal_precedents key provider q ipc mr).candidates,
        ∃ item, item ∈ provider (precedent_request q ipc mr) ∧
          c = mkCandidate item ∧
          c.summary = ((item.content.getD "").data.take 500).asString) := by
  intro mr hmr key provider q ipc
  rw [search_candidates_eq]
  by_cases hkey : key.getD "" = ""
  · rw [if_pos hkey]
    exact ⟨by simp; omega, ⟨[], List.nil_sublist _, rfl⟩, by simp⟩
  · rw [if_neg hkey]
    refine ⟨?_, collectLoop_eq_map_sublist mr _ [] 0, ?_⟩
    · have hlen := collectLoop_length_le mr (provider (precedent_request q ipc mr))
        [] 0 (by omega)
      push_cast at hlen ⊢
      omega
    · intro c hc
      obtain ⟨_, pre, item, post, hraw, hcand, _, _⟩ :=
        collectLoop_mem_spec mr _ [] 0 c hc
      refine ⟨item, ?_, hcand, by rw [hcand]; rfl⟩
      rw [hraw]
      exact List.mem_append_right _ (List.mem_cons_self _ _)

/-- Witness for the amended C7 at a concrete input. -/
theorem c7_truncation_order_amended_witness :
    (((search_legal_precedents (some "k") (fun _ => [rawTrusted]) "q" none 2).candidates).length : Int) ≤ 2 ∧
    (∃ sub : List RawResult,
      sub.Sublist [rawTrusted] ∧
      (search_legal_precedents (some "k") (fun _ => [rawTrusted]) "q" none 2).candidates =
        sub.map mkCandidate) ∧
    (∀ c ∈ (search_legal_precedents (some "k") (fun _ => [rawTrusted]) "q" none 2).candidates,
      ∃ item, item ∈ [rawTrusted] ∧ c = mkCandidate item ∧
        c.summary = ((item.content.getD "").data.take 500).asString) :=
  c7_truncation_order_amended 2 (by decide) (some "k") (fun _ => [rawTrusted]) "q" none

/-- C8: `search_by_court` returns at most `maxResults` candidates (for
`maxResults ≥ 0`), each carrying the native provider relevance score
(defaulted to 0 when absent) and no extracted citation; it performs no
title deduplication — two trusted upstream results with the same title both
appear, as the concrete conjunct shows. -/
theorem c8_by_court_contract :
    ∀ (provider : ProviderRequest → List RawResult) (q lvl : String) (mr : Int),
      0 ≤ mr →
      (search_by_court provider q lvl mr).length ≤ mr.toNat ∧
      (∀ c ∈ search_by_court provider q lvl mr,
        ∃ item, item ∈ provider (by_court_request q lvl mr) ∧
          c = mkCourtCandidate lvl item ∧
          c.relevance_score = item.score.getD 0) ∧
      (search_by_court (fun _ => [rawTrusted, rawTrusted]) "qq" "all" 5).map
          CourtCandidate.title = [some "X v Y", some "X v Y"] := by
  intro provider q lvl mr hmr
  refine ⟨?_, ?_, by decide⟩
  · unfold search_by_court
    exact pyTake_length_le hmr _
  · intro c hc
    obtain ⟨item, hi, hcand, _⟩ := search_by_court_mem hc
    exact ⟨item, hi, hcand, by rw [hcand]; rfl⟩

/-- Witness for C8 at a concrete input. -/
theorem c8_by_court_contract_witness :
    (search_by_court (fun _ => [rawTrusted]) "q" "all" 5).length ≤ (5:Int).toNat ∧
    (∀ c ∈ search_by_court (fun _ => [rawTrusted]) "q" "all" 5,
      ∃ item, item ∈ [rawTrusted] ∧ c = mkCourtCandidate "all" item ∧
        c.relevance_score = item.score.getD 0) ∧
    (search_by_court (fun _ => [rawTrusted, rawTrusted]) "qq" "all" 5).map
        CourtCandidate.title = [some "X v Y", some "X v Y"] :=
  c8_by_court_contract (fun _ => [rawTrusted]) "q" "all" 5 (by decide)
